import Mathlib

/-!
Verification of the spreadsheet-to-record parser (`server/utils/excel_parser.py`)
against its natural-language specification.

The grid produced by `pd.read_excel(..., header=None, dtype=str)` is modelled as a
list of rows, each row a list of cells; a cell is `none` (pandas `NaN`, a blank
spreadsheet cell) or `some s` (the cell text).  All functions below are direct
translations of the Python source; machine floats produced by `float(...)` are
modelled as exact rationals, which is faithful here because the parser performs
no arithmetic on them.
-/

abbrev Cell := Option String
abbrev Row := List Cell
abbrev Grid := List Row

/-- Python `\s` whitespace class (ASCII part), used by `.strip()` and `re.sub(r'\s+', ' ')`. -/
def isSpaceChar (c : Char) : Bool :=
  c = ' ' || c = '\t' || c = '\n' || c = '\r' || c = '\x0b' || c = '\x0c'

/-- Python `str.strip()` on a character list. -/
def stripChars (s : List Char) : List Char :=
  ((s.dropWhile isSpaceChar).reverse.dropWhile isSpaceChar).reverse

/-- Python `str.strip()` on a string. -/
def stripStr (s : String) : String :=
  String.mk (stripChars s.toList)

/-- Python `str.replace('\n', ' ')`. -/
def replaceNl (s : List Char) : List Char :=
  s.map (fun c => if c = '\n' then ' ' else c)

/-- Python `re.sub(r'\s+', ' ', s)`: every maximal whitespace run becomes one space.
The boolean argument records whether the previous character was whitespace. -/
def collapseWsAux : Bool → List Char → List Char
  | _, [] => []
  | prev, c :: cs =>
    if isSpaceChar c then
      if prev then collapseWsAux true cs else ' ' :: collapseWsAux true cs
    else c :: collapseWsAux false cs

def collapseWs (s : List Char) : List Char := collapseWsAux false s

/-- `normalize_header` of the source: lowercase, strip, newline→space, collapse
whitespace runs.  `none` (pandas NaN) normalizes to the empty string. -/
def normalize_header : Cell → String
  | none => ""
  | some s => String.mk (collapseWs (replaceNl (stripChars (s.toList.map Char.toLower))))

/-- `normalize_header` applied to a plain Python `str` (never NaN). -/
def normalizeStr (s : String) : String := normalize_header (some s)

/-- Python `p.startswith(q)` / list version of string prefix test. -/
def leadsWith : List Char → List Char → Bool
  | [], _ => true
  | _ :: _, [] => false
  | p :: ps, c :: cs => p = c && leadsWith ps cs

/-- Python `pat in s` substring containment on character lists. -/
def hasSub (pat : List Char) : List Char → Bool
  | [] => leadsWith pat []
  | c :: cs => leadsWith pat (c :: cs) || hasSub pat cs

/-- Python `pat in s` on strings. -/
def strContains (s pat : String) : Bool := hasSub pat.toList s.toList

-- =============================================================================
-- Numeric coercion (`clean_numeric`)
-- =============================================================================

/-- The character filter of `re.sub(r'[^\d.\-]', '', text)`. -/
def keepNumChar (c : Char) : Bool := c.isDigit || c = '.' || c = '-'

def cleanChars (s : List Char) : List Char := s.filter keepNumChar

/-- Digit-list to number, most significant digit first. -/
def digitsToNat (l : List Char) : Nat :=
  l.foldl (fun a c => a * 10 + (c.toNat - 48)) 0

/-- Python `float(s)` restricted to strings over the alphabet `{0-9, '.', '-'}`
(the only strings `clean_numeric` feeds it): an optional leading minus sign,
then digits with at most one decimal point and at least one digit; anything
else raises, modelled as `none`. -/
def parseFloatStr (s : List Char) : Option Rat :=
  let neg : Bool := s.headD ' ' = '-'
  let body : List Char := if s.headD ' ' = '-' then s.tail else s
  let ip := body.takeWhile Char.isDigit
  let rest := body.dropWhile Char.isDigit
  let mag : Option Rat :=
    match rest with
    | [] => if ip.isEmpty then none else some (digitsToNat ip : Rat)
    | c :: frac =>
      if c = '.' then
        if frac.all Char.isDigit && (!ip.isEmpty || !frac.isEmpty) then
          some ((digitsToNat ip : Rat) + (digitsToNat frac : Rat) / ((10 : Rat) ^ frac.length))
        else none
      else none
  mag.map (fun v => if neg then -v else v)

/-- `clean_numeric` of the source: strip every character except digits, `.`, `-`;
reject empty or pure-punctuation remainders; otherwise `float(...)`, with any
parse failure giving `None`. -/
def clean_numeric : Cell → Option Rat
  | none => none
  | some s =>
    let cleaned := cleanChars s.toList
    if cleaned = [] || cleaned = ['.'] || cleaned = ['-'] || cleaned = ['-', '.'] then none
    else parseFloatStr cleaned

-- =============================================================================
-- Date coercion (`parse_date`)
-- =============================================================================

/-- Decimal rendering of a natural number (C `strftime` prints `%Y` as a plain
decimal with no zero padding on this platform).  Structural in a fuel argument
so that it reduces in the kernel; `natDec n` is correct for every `n ≤ fuel`. -/
def natDecAux : Nat → Nat → List Char
  | 0, _ => []
  | fuel + 1, n =>
    if n < 10 then [Char.ofNat (48 + n)]
    else natDecAux fuel (n / 10) ++ [Char.ofNat (48 + n % 10)]

def natDec (n : Nat) : List Char := natDecAux n n

/-- Two-digit zero-padded rendering, as `strftime` `%m` / `%d` produce. -/
def fmt2c (n : Nat) : List Char :=
  if n < 10 then ['0', Char.ofNat (48 + n)] else natDec n

/-- `datetime.strftime('%Y-%m-%d')`: unpadded year, zero-padded month and day. -/
def formatDate (y m d : Nat) : String :=
  String.mk (natDec y ++ '-' :: (fmt2c m ++ '-' :: fmt2c d))

/-- `strptime` `%Y`: exactly four digits. -/
def parseYear4 (l : List Char) : Option Nat :=
  if l.length = 4 && l.all Char.isDigit then some (digitsToNat l) else none

/-- `strptime` `%m`: one or two digits, value 1–12, "00" and "0" excluded. -/
def parseMonth (l : List Char) : Option Nat :=
  if l.length = 1 || l.length = 2 then
    if l.all Char.isDigit then
      let v := digitsToNat l
      if 1 ≤ v && v ≤ 12 then some v else none
    else none
  else none

/-- `strptime` `%d`: one or two digits, value 1–31, "00" and "0" excluded. -/
def parseDay (l : List Char) : Option Nat :=
  if l.length = 1 || l.length = 2 then
    if l.all Char.isDigit then
      let v := digitsToNat l
      if 1 ≤ v && v ≤ 31 then some v else none
    else none
  else none

/-- Split a string into exactly three separator-delimited parts, as the compiled
`strptime` pattern `component sep component sep component` requires (the numeric
component regexes never consume the separator, so maximal-run splitting is
equivalent to the regex match). -/
def split3 (sep : Char) (cs : List Char) : Option (List Char × List Char × List Char) :=
  let p1 := cs.takeWhile (fun c => c ≠ sep)
  match cs.dropWhile (fun c => c ≠ sep) with
  | _ :: rest1 =>
    let p2 := rest1.takeWhile (fun c => c ≠ sep)
    match rest1.dropWhile (fun c => c ≠ sep) with
    | _ :: p3 => if p3.contains sep then none else some (p1, p2, p3)
    | [] => none
  | [] => none

def isLeap (y : Nat) : Bool := y % 4 = 0 && (y % 100 ≠ 0 || y % 400 = 0)

def daysInMonth (y m : Nat) : Nat :=
  if m = 2 then (if isLeap y then 29 else 28)
  else if m = 4 || m = 6 || m = 9 || m = 11 then 30
  else 31

/-- The constructor check of `datetime(...)`: `strptime` raises when the matched
numbers do not form a calendar date (year 0 or day out of range). -/
def validDate (y m d : Nat) : Bool := 1 ≤ y && 1 ≤ d && d ≤ daysInMonth y m

/-- Component order of a date pattern: year-month-day, day-month-year, or
month-day-year. -/
inductive DOrder | ymd | dmy | mdy

/-- `datetime.strptime(text, fmt)` for one of the six fixed patterns, returning
the calendar triple on success. -/
def tryFormat (sep : Char) (ord : DOrder) (cs : List Char) : Option (Nat × Nat × Nat) :=
  match split3 sep cs with
  | none => none
  | some (p1, p2, p3) =>
    let comps : Option (Nat × Nat × Nat) :=
      match ord with
      | .ymd => match parseYear4 p1, parseMonth p2, parseDay p3 with
        | some y, some m, some d => some (y, m, d)
        | _, _, _ => none
      | .dmy => match parseDay p1, parseMonth p2, parseYear4 p3 with
        | some d, some m, some y => some (y, m, d)
        | _, _, _ => none
      | .mdy => match parseMonth p1, parseDay p2, parseYear4 p3 with
        | some m, some d, some y => some (y, m, d)
        | _, _, _ => none
    match comps with
    | some (y, m, d) => if validDate y m d then some (y, m, d) else none
    | none => none

/-- The six formats of the source, in order:
`%Y-%m-%d`, `%d/%m/%Y`, `%m/%d/%Y`, `%d-%m-%Y`, `%Y/%m/%d`, `%d.%m.%Y`. -/
def dateFormats : List (Char × DOrder) :=
  [('-', .ymd), ('/', .dmy), ('/', .mdy), ('-', .dmy), ('/', .ymd), ('.', .dmy)]

/-- `parse_date` of the source: strip, then try each format in order and return
the first successful parse re-rendered as `%Y-%m-%d`; `None` for blank cells and
unparsable text. -/
def parse_date : Cell → Option String
  | none => none
  | some s =>
    let text := stripStr s
    if text = "" then none
    else
      dateFormats.findSome? fun p =>
        (tryFormat p.1 p.2 text.toList).map fun t => formatDate t.1 t.2.1 t.2.2

-- =============================================================================
-- EXACT column mappings, numeric and date field sets
-- =============================================================================

/-- `EXACT_COLUMN_MAPPINGS` of the source: normalized header → canonical field. -/
def EXACT_COLUMN_MAPPINGS : List (String × String) := [
  ("previo", "previo"),
  ("ranking", "ranking"),
  ("renking general", "ranking"),
  ("id power steering", "legacyId"),
  ("card id devops", "cardIdDevops"),
  ("iniciativa", "projectName"),
  ("descripción", "problemStatement"),
  ("descripcion", "problemStatement"),
  ("valor / diferenciador", "valorDiferenciador"),
  ("fecha de registro", "registrationDate"),
  ("fecha inicio", "startDate"),
  ("fecha de término / real o estimada", "endDateEstimated"),
  ("fecha de termino / real o estimada", "endDateEstimated"),
  ("t. de ciclo en días", "tiempoCicloDias"),
  ("t. de ciclo en dias", "tiempoCicloDias"),
  ("tiempo de ciclo en días", "tiempoCicloDias"),
  ("tiempo de ciclo en dias", "tiempoCicloDias"),
  ("estatus al día", "estatusAlDia"),
  ("estatus al dia", "estatusAlDia"),
  ("proceso de negocio", "departmentName"),
  ("ingresada en pbot", "ingresadaEnPbot"),
  ("grupo técnico asignado", "grupoTecnicoAsignado"),
  ("grupo tecnico asignado", "grupoTecnicoAsignado"),
  ("tipo de iniciativa", "status"),
  ("citizen developer / creator", "citizenDeveloper"),
  ("dueño del proceso", "sponsor"),
  ("dueno del proceso", "sponsor"),
  ("líder o solicitante", "leader"),
  ("lider o solicitante", "leader"),
  ("dtc lead", "dtcLead"),
  ("black belt lead", "blackBeltLead"),
  ("dirección de negocio del usuario", "direccionNegocioUsuario"),
  ("direccion de negocio del usuario", "direccionNegocioUsuario"),
  ("¿impacta a gases envasados ?", "impactaGasesEnvasados"),
  ("¿impacta a gases envasados?", "impactaGasesEnvasados"),
  ("business process analyst", "bpAnalyst"),
  ("área de productividad", "areaProductividad"),
  ("area de productividad", "areaProductividad"),
  ("¿en que nivel es detonada la necesidad?", "scoringNivelDemanda"),
  ("¿en qué nivel es detonada la necesidad?", "scoringNivelDemanda"),
  ("¿de qué nivel es demanda la necesidad?", "scoringNivelDemanda"),
  ("¿de que nivel es demanda la necesidad?", "scoringNivelDemanda"),
  ("¿tiene un sponsor o dueño?", "scoringTieneSponsor"),
  ("¿tiene un sponsor o dueno?", "scoringTieneSponsor"),
  ("¿a cuántas personas afecta?", "scoringPersonasAfecta"),
  ("¿a cuantas personas afecta?", "scoringPersonasAfecta"),
  ("¿a cuántas personas /clientes impacta?", "scoringPersonasAfecta"),
  ("¿a cuantas personas /clientes impacta?", "scoringPersonasAfecta"),
  ("alineado a objetivos estratég.", "strategicFit"),
  ("alineado a objetivos estrateg.", "strategicFit"),
  ("alineado a objetivos / estrategia", "strategicFit"),
  ("¿cuál es el impacto en beneficios duros?", "financialImpact"),
  ("¿cual es el impacto en beneficios duros?", "financialImpact"),
  ("¿cuál es el impacto en beneficios duros anuales?", "financialImpact"),
  ("¿cual es el impacto en beneficios duros anuales?", "financialImpact"),
  ("¿simplifica procesos o mejora el control?", "scoringSimplificaProcesos"),
  ("¿es replicable?", "scoringEsReplicable"),
  ("¿es proyecto estratégico?", "scoringEsEstrategico"),
  ("¿es proyecto estrategico?", "scoringEsEstrategico"),
  ("¿requiere recursos externos para el desarrollo? cantidad de personas", "scoringRecursosExternos"),
  ("¿requiere recursos externos para el desarrollo?", "scoringRecursosExternos"),
  ("requiere capex/inversión?", "capexTier"),
  ("requiere capex/inversion?", "capexTier"),
  ("¿requiere capex/inversión?", "capexTier"),
  ("¿requiere capex/inversion?", "capexTier"),
  ("¿cuál es el tiempo de desarrollo?", "scoringTiempoDesarrollo"),
  ("¿cual es el tiempo de desarrollo?", "scoringTiempoDesarrollo"),
  ("¿cuál es la calidad de la información?", "scoringCalidadInformacion"),
  ("¿cual es la calidad de la informacion?", "scoringCalidadInformacion"),
  ("¿cuál es la calidad de datos y disponibilidad de la información?", "scoringCalidadInformacion"),
  ("¿cual es la calidad de datos y disponibilidad de la informacion?", "scoringCalidadInformacion"),
  ("¿cuál es el tiempo para conseguir la información?", "scoringTiempoConseguirInfo"),
  ("¿cual es el tiempo para conseguir la informacion?", "scoringTiempoConseguirInfo"),
  ("¿cuál es el tiempo para implementar la solución?", "scoringTiempoImplementar"),
  ("¿cual es el tiempo para implementar la solucion?", "scoringTiempoImplementar"),
  ("¿qué tan compleja es la implementación técnica?", "scoringComplejidadTecnica"),
  ("¿que tan compleja es la implementacion tecnica?", "scoringComplejidadTecnica"),
  ("¿qué tan compleja es la integración técnica de la(s) solucion digital?", "scoringComplejidadTecnica"),
  ("¿que tan compleja es la integracion tecnica de la(s) solucion digital?", "scoringComplejidadTecnica"),
  ("complejidad del cambio a personas", "scoringComplejidadCambio"),
  ("¿qué tan compleja es la implementacion? complejidad del nuevo proceso o cantidad de recursos para implementar", "scoringComplejidadCambio"),
  ("¿que tan compleja es la implementacion? complejidad del nuevo proceso o cantidad de recursos para implementar", "scoringComplejidadCambio"),
  ("valor", "totalValor"),
  ("total valor", "totalValor"),
  ("esfuerzo", "totalEsfuerzo"),
  ("total esfuerzo", "totalEsfuerzo"),
  ("puntaje total", "puntajeTotal"),
  ("estatus y siguientes pasos", "statusText"),
  ("acciones a ejecutar para acelerar", "accionesAcelerar"),
  ("business impact usd$ growth / year estimated", "businessImpactGrowth"),
  ("business impact usd$ growth / year", "businessImpactGrowth"),
  ("business impact usd$ costos", "businessImpactCostos"),
  ("business impact (time, control, compliance)", "businessImpactOther"),
  ("fase: nuevo / analisis / desarrollo / pruebas/ implementado / terminado", "projectPhase")]

/-- `NUMERIC_FIELDS` of the source. -/
def NUMERIC_FIELDS : List String := [
  "ranking", "totalEsfuerzo", "puntajeTotal", "totalValor", "tiempoCicloDias",
  "previo", "scoringNivelDemanda", "scoringTieneSponsor", "scoringPersonasAfecta",
  "scoringEsReplicable", "scoringEsEstrategico", "scoringTiempoDesarrollo",
  "scoringCalidadInformacion", "scoringTiempoConseguirInfo", "scoringComplejidadTecnica",
  "scoringComplejidadCambio", "businessImpactGrowth", "businessImpactCostos",
  "scoringSimplificaProcesos", "scoringRecursosExternos", "scoringTiempoImplementar",
  "strategicFit", "financialImpact", "capexTier"]

/-- `DATE_FIELDS` of the source. -/
def DATE_FIELDS : List String := ["registrationDate", "startDate", "endDateEstimated"]

/-- `map_column_name` of the source: normalize, then exact dictionary lookup only. -/
def map_column_name (colName : String) : Option String :=
  let normalized := normalizeStr colName
  if normalized = "" then none
  else EXACT_COLUMN_MAPPINGS.lookup normalized

-- =============================================================================
-- Anchor (header row) detection
-- =============================================================================

/-- One cell of the scan: `pd.notna(cell) and anchor_lower in normalize_header(cell)`. -/
def cellMatches (kw : String) (c : Cell) : Bool :=
  match c with
  | none => false
  | some _ => hasSub kw.toList (normalize_header c).toList

def rowMatches (kw : String) (r : Row) : Bool := r.any (cellMatches kw)

/-- The scan loop of `find_header_row`: `for idx in range(min(max_rows, len(df)))`,
returning the first matching row index. -/
def findHeaderAux (kw : String) : Nat → Nat → Grid → Option Nat
  | _, _, [] => none
  | 0, _, _ => none
  | fuel + 1, i, r :: rs => if rowMatches kw r then some i else findHeaderAux kw fuel (i + 1) rs

/-- `find_header_row` of the source (`max_rows` defaults to 15 at every call site). -/
def find_header_row (g : Grid) (kw : String) (maxRows : Nat) : Option Nat :=
  findHeaderAux kw maxRows 0 g

/-- The keyword cascade of `parse_excel`: "iniciativa", then "proyecto", then "nombre". -/
def locateAnchor (g : Grid) : Option Nat :=
  match find_header_row g "iniciativa" 15 with
  | some i => some i
  | none =>
    match find_header_row g "proyecto" 15 with
    | some i => some i
    | none => find_header_row g "nombre" 15

-- =============================================================================
-- Header merging (`build_merged_headers`)
-- =============================================================================

def getCell (g : Grid) (r c : Nat) : Cell := (g.getD r []).getD c none

def numCols (g : Grid) : Nat := g.foldr (fun r acc => max r.length acc) 0

/-- The "is a scoring question" heuristic of `build_merged_headers`. -/
def isScoringQuestion (ph : String) : Bool :=
  let pn := (normalizeStr ph).toList
  (match ph.toList with | c :: _ => c = '¿' | [] => false)
  || ph.toList.contains '¿'
  || hasSub "nivel".toList pn
  || hasSub "sponsor".toList pn
  || hasSub "impacto".toList pn
  || hasSub "capex".toList pn
  || hasSub "replicable".toList pn
  || hasSub "personas".toList pn
  || hasSub "objetivos".toList pn
  || hasSub "simplifica".toList pn
  || hasSub "recursos externos".toList pn
  || hasSub "tiempo de desarrollo".toList pn
  || hasSub "calidad de datos".toList pn
  || hasSub "compleja".toList pn

/-- `build_merged_headers` of the source, as a function of the column index:
prefer the row above the anchor row when it looks like a scoring question,
else the anchor-row text, else a placeholder. -/
def buildMergedHeader (g : Grid) (headerRow colIdx : Nat) : String :=
  let prevRowIdx := if headerRow > 0 then headerRow - 1 else headerRow
  let mainHeader := match getCell g headerRow colIdx with | none => "" | some v => stripStr v
  let prevHeader :=
    if prevRowIdx ≠ headerRow then
      match getCell g prevRowIdx colIdx with | none => "" | some v => stripStr v
    else ""
  if prevHeader ≠ "" && isScoringQuestion prevHeader then prevHeader
  else if mainHeader ≠ "" then mainHeader
  else "Unnamed: " ++ toString colIdx

-- =============================================================================
-- Forward fill (`df.ffill()`) and blank-row dropping (`df.dropna(how='all')`)
-- =============================================================================

/-- Merge one row over the running column state: a blank cell inherits the value
above it in the same column. -/
def mergeLast : List Cell → Row → List Cell
  | ls, [] => ls
  | [], c :: cs => c :: mergeLast [] cs
  | l :: ls, c :: cs => (match c with | some v => some v | none => l) :: mergeLast ls cs

def ffillAux : List Cell → Grid → Grid
  | _, [] => []
  | last, r :: rs =>
    let r' := mergeLast last r
    r' :: ffillAux r' rs

/-- Columnwise forward fill over the whole grid. -/
def ffillGrid (g : Grid) : Grid := ffillAux [] g

def isBlankRow (r : Row) : Bool := r.all fun c => c.isNone

def dropBlankRows (g : Grid) : Grid := g.filter fun r => !isBlankRow r

-- =============================================================================
-- Record assembly
-- =============================================================================

/-- A typed record value: numbers from `clean_numeric`, ISO strings from
`parse_date`, raw trimmed text otherwise. -/
inductive Val
  | num (q : Rat)
  | date (s : String)
  | str (s : String)
deriving DecidableEq

/-- A Python dict keyed by field name, in insertion order. -/
abbrev Project := List (String × Val)

/-- Python `project[k] = v`: replace in place if present, append otherwise. -/
def dictInsert (p : Project) (k : String) (v : Val) : Project :=
  if p.any (fun kv => kv.1 = k) then p.map (fun kv => if kv.1 = k then (k, v) else kv)
  else p ++ [(k, v)]

/-- Python `project.get(k)`. -/
def dictGet (p : Project) (k : String) : Option Val :=
  (p.find? fun kv => kv.1 = k).map (·.2)

/-- Python truthiness of `project.get(k)` (`None`, `''` and `0` are falsy). -/
def truthyVal : Option Val → Bool
  | none => false
  | some (.str s) => s ≠ ""
  | some (.date s) => s ≠ ""
  | some (.num q) => q ≠ 0

/-- One mapped column: its merged header text and its canonical field. -/
structure ColMapping where
  header : String
  field : String
deriving DecidableEq

/-- The per-column body of the row loop of `parse_excel`: numeric fields through
`clean_numeric`, date fields through `parse_date`, everything else stored as
trimmed text when the cell is non-blank; absent results write nothing. -/
def coerceStep (row : Row) (p : Project) (e : Nat × ColMapping) : Project :=
  let value : Cell := row.getD e.1 none
  let f := e.2.field
  if NUMERIC_FIELDS.contains f then
    match clean_numeric value with
    | some q => dictInsert p f (.num q)
    | none => p
  else if DATE_FIELDS.contains f then
    match parse_date value with
    | some d => dictInsert p f (.date d)
    | none => p
  else
    match value with
    | some v => dictInsert p f (.str (stripStr v))
    | none => p

/-- The record built from one data row before the name check and defaulting. -/
def rawAssemble (cm : List (Nat × ColMapping)) (row : Row) : Project :=
  cm.foldl (coerceStep row) []

/-- One data row of the row loop: skip rows without a truthy `projectName`,
default `status` to "Draft" when falsy. -/
def assembleRow (cm : List (Nat × ColMapping)) (row : Row) : Option Project :=
  let p := rawAssemble cm row
  if truthyVal (dictGet p "projectName") then
    some (if truthyVal (dictGet p "status") then p else dictInsert p "status" (.str "Draft"))
  else none

/-- The column-mapping loop of `parse_excel`: every column whose merged header
has an exact mapping, in ascending column order. -/
def buildColumnMap (hdr : Nat → String) (nCols : Nat) : List (Nat × ColMapping) :=
  (List.range nCols).filterMap fun i =>
    match map_column_name (hdr i) with
    | some f => some (i, ⟨hdr i, f⟩)
    | none => none

/-- The result envelope of `parse_excel`. -/
structure ParseResult where
  success : Bool
  projects : List Project
  errors : List String
  headerRow : Option Nat
  totalRows : Nat
  columnsMapped : List (String × String)
  columnsUnmapped : List String
deriving DecidableEq

/-- `parse_excel` of the source.  The input is `none` when the spreadsheet
collaborator cannot produce a grid (unreadable file), `some g` otherwise. -/
def parse_excel (input : Option Grid) : ParseResult :=
  match input with
  | none => ⟨false, [], ["Error leyendo archivo Excel"], none, 0, [], []⟩
  | some g =>
    let errs0 : List String :=
      if (find_header_row g "iniciativa" 15).isNone then
        ["No se encontró la fila de encabezado con \"Iniciativa\". Buscando alternativas..."]
      else []
    match locateAnchor g with
    | none => ⟨false, [], errs0 ++ ["No se pudo detectar la fila de encabezado."], none, 0, [], []⟩
    | some hr =>
      let rawData := g.drop (hr + 1)
      let dataRows := dropBlankRows (ffillGrid rawData)
      let n := numCols rawData
      let hdr := buildMergedHeader g hr
      let cm := buildColumnMap hdr n
      let unmapped := (List.range n).filterMap fun i =>
        if (map_column_name (hdr i)).isNone then some (hdr i) else none
      let projects := dataRows.filterMap (assembleRow cm)
      ⟨true, projects, errs0, some hr, dataRows.length, cm.map (fun e => (e.2.header, e.2.field)), unmapped⟩

-- =============================================================================
-- Spec-side definitions (for refinement comparison only; the source defines no
-- scoring-matrix classifier and no boolean coercer)
-- =============================================================================

/-- The closed CAPEX enumeration named by the specification. -/
inductive CapexTierClass
  | HIGH_COST
  | MEDIUM_COST
  | LOW_COST
  | ZERO_COST
deriving DecidableEq

/-- Written from the spec's words (§4.5): ordered first-match rules collapsing
free CAPEX text into the closed enumeration; no match yields absent. -/
def capexClassifySpec (s : String) : Option CapexTierClass :=
  let t := normalizeStr s
  let tl := t.toList
  if hasSub ">100".toList tl || hasSub "> 100".toList tl then some .HIGH_COST
  else if hasSub "20".toList tl && hasSub "100".toList tl then some .MEDIUM_COST
  else if hasSub "<5".toList tl || hasSub "<20".toList tl then some .LOW_COST
  else if t = "no" || hasSub "no requiere".toList tl || hasSub "ninguno".toList tl then
    some .ZERO_COST
  else none

/-- Written from the spec's words (§4.4): case-insensitive boolean token match,
affirmative → true, negative → false, anything else absent. -/
def boolCoerceSpec (s : String) : Option Bool :=
  let t := String.mk (stripChars (s.toList.map Char.toLower))
  if t = "sí" || t = "si" || t = "yes" || t = "true" || t = "1" || t = "x" then some true
  else if t = "no" || t = "false" || t = "0" || t = "" then some false
  else none

-- =============================================================================
-- Specification-style view of forward fill: nearest non-blank value at or
-- above a position, seeded by a running column state
-- =============================================================================

def lookbackFrom (last : List Cell) (g : Grid) : Nat → Nat → Cell
  | 0, j => match getCell g 0 j with | some v => some v | none => last.getD j none
  | i + 1, j => match getCell g (i + 1) j with | some v => some v | none => lookbackFrom last g i j

/-- The nearest non-blank value at or above row `i` in column `j`. -/
def lookback (g : Grid) (i j : Nat) : Cell := lookbackFrom [] g i j

/-- A one-column mapping sending column 0 to `projectName`, used to state the
name-inheritance properties. -/
def nameOnlyMap : List (Nat × ColMapping) := [(0, ⟨"Iniciativa", "projectName"⟩)]

-- =============================================================================
-- Helper lemmas
-- =============================================================================

theorem leadsWith_iff_isPrefix (p l : List Char) : leadsWith p l = true ↔ p <+: l := by
  induction p generalizing l with
  | nil => simp [leadsWith]
  | cons a as ih =>
    cases l with
    | nil => simp [leadsWith]
    | cons b bs =>
      simp only [leadsWith, Bool.and_eq_true, decide_eq_true_eq, List.cons_prefix_cons]
      exact and_congr Iff.rfl (ih bs)

theorem hasSub_iff_isInfix (p l : List Char) : hasSub p l = true ↔ p <:+: l := by
  induction l with
  | nil =>
    simp only [hasSub, leadsWith_iff_isPrefix, List.prefix_nil, List.infix_nil]
  | cons c cs ih =>
    simp only [hasSub, Bool.or_eq_true, leadsWith_iff_isPrefix, ih, List.infix_cons_iff]

theorem findHeaderAux_some {kw : String} :
    ∀ (rs : Grid) (fuel i j : Nat), findHeaderAux kw fuel i rs = some j →
      ∃ k, j = i + k ∧ k < fuel ∧ k < rs.length ∧
        rowMatches kw (rs.getD k []) = true ∧
        ∀ l, l < k → rowMatches kw (rs.getD l []) = false := by
  intro rs
  induction rs with
  | nil => intro fuel i j h; cases fuel <;> simp [findHeaderAux] at h
  | cons r rest ih =>
    intro fuel i j h
    cases fuel with
    | zero => simp [findHeaderAux] at h
    | succ fuel =>
      have hred : findHeaderAux kw (fuel + 1) i (r :: rest) =
          if rowMatches kw r = true then some i else findHeaderAux kw fuel (i + 1) rest := rfl
      rw [hred] at h
      by_cases hm : rowMatches kw r = true
      · rw [if_pos hm] at h
        injection h with h
        exact ⟨0, by omega, Nat.succ_pos _, Nat.succ_pos _, by simpa using hm,
          fun l hl => absurd hl (Nat.not_lt_zero l)⟩
      · rw [if_neg hm] at h
        obtain ⟨k, hk, hkf, hkl, hmatch, hprev⟩ := ih fuel (i + 1) j h
        refine ⟨k + 1, by omega, by omega, by simpa using Nat.succ_lt_succ hkl,
          by simpa using hmatch, ?_⟩
        intro l hl
        cases l with
        | zero => simpa using Bool.not_eq_true _ ▸ hm
        | succ l => simpa using hprev l (Nat.lt_of_succ_lt_succ hl)

theorem findHeaderAux_none {kw : String} :
    ∀ (rs : Grid) (fuel i : Nat),
      (∀ k, k < min fuel rs.length → rowMatches kw (rs.getD k []) = false) →
      findHeaderAux kw fuel i rs = none := by
  intro rs
  induction rs with
  | nil => intro fuel i _; cases fuel <;> simp [findHeaderAux]
  | cons r rest ih =>
    intro fuel i hall
    cases fuel with
    | zero => simp [findHeaderAux]
    | succ fuel =>
      have hred : findHeaderAux kw (fuel + 1) i (r :: rest) =
          if rowMatches kw r = true then some i else findHeaderAux kw fuel (i + 1) rest := rfl
      rw [hred]
      have h0 : rowMatches kw r = false := by
        simpa using hall 0 (by simp only [List.length_cons]; omega)
      rw [if_neg (by simp [h0])]
      apply ih fuel (i + 1)
      intro k hk
      simpa using hall (k + 1)
        (by simp only [List.length_cons]; simp only [Nat.lt_min] at hk ⊢; omega)

theorem dictGet_dictInsert_self (p : Project) (k : String) (v : Val) :
    dictGet (dictInsert p k v) k = some v := by
  rw [dictInsert]
  by_cases h : p.any (fun kv => kv.1 = k) = true
  · rw [if_pos h]
    induction p with
    | nil => simp at h
    | cons kv tl ih =>
      simp only [List.any_cons, Bool.or_eq_true, decide_eq_true_eq] at h
      by_cases hk : kv.1 = k
      · simp [dictGet, List.find?, hk]
      · have htl : tl.any (fun kv => kv.1 = k) = true := by
          rcases h with h | h
          · exact absurd h hk
          · simpa using h
        simp only [List.map_cons, if_neg hk]
        rw [dictGet] at ih ⊢
        simp only [List.find?]
        rw [show (decide (kv.1 = k)) = false by simpa using hk]
        exact ih htl
  · rw [if_neg h]
    induction p with
    | nil => simp [dictGet, List.find?]
    | cons kv tl ih =>
      simp only [List.any_cons, Bool.or_eq_true, decide_eq_true_eq, not_or] at h
      simp only [List.cons_append]
      rw [dictGet]
      simp only [List.find?]
      rw [show (decide (kv.1 = k)) = false by simpa using h.1]
      have := ih (by simpa using h.2)
      rw [dictGet] at this
      exact this

theorem dictGet_append_single (p : Project) (k k' : String) (v : Val) (hne : k' ≠ k) :
    dictGet (p ++ [(k, v)]) k' = dictGet p k' := by
  induction p with
  | nil =>
    simp only [List.nil_append, dictGet, List.find?]
    rw [show (decide ((k, v).1 = k')) = false by simp; exact fun hh => hne hh.symm]
  | cons kv tl ih =>
    simp only [List.cons_append, dictGet, List.find?]
    cases hd : decide (kv.1 = k') with
    | true => rfl
    | false =>
      rw [dictGet] at ih
      exact ih

theorem dictGet_dictInsert_other (p : Project) (k k' : String) (v : Val) (hne : k' ≠ k) :
    dictGet (dictInsert p k v) k' = dictGet p k' := by
  rw [dictInsert]
  by_cases h : p.any (fun kv => kv.1 = k) = true
  · rw [if_pos h]
    clear h
    induction p with
    | nil => rfl
    | cons kv tl ih =>
      simp only [List.map_cons]
      rw [dictGet, dictGet]
      simp only [List.find?]
      by_cases hk : kv.1 = k
      · rw [if_pos hk]
        rw [show (decide ((k, v).1 = k')) = false by simp; exact fun hh => hne hh.symm]
        rw [show (decide (kv.1 = k')) = false by simp [hk]; exact fun hh => hne hh.symm]
        rw [dictGet] at ih
        exact ih
      · rw [if_neg hk]
        cases hd : decide (kv.1 = k') with
        | true => rfl
        | false =>
          rw [dictGet] at ih
          exact ih
  · rw [if_neg h]
    exact dictGet_append_single p k k' v hne

theorem truthyVal_isSome {o : Option Val} (h : truthyVal o = true) : ∃ v, o = some v := by
  cases o with
  | none => simp [truthyVal] at h
  | some v => exact ⟨v, rfl⟩

theorem mergeLast_getD (last : List Cell) (r : Row) (j : Nat) :
    (mergeLast last r).getD j none =
      match r.getD j none with
      | some v => some v
      | none => last.getD j none := by
  induction r generalizing last j with
  | nil =>
    cases last with
    | nil => simp [mergeLast]
    | cons l ls => simp [mergeLast]
  | cons c cs ih =>
    cases last with
    | nil =>
      cases j with
      | zero => cases c <;> simp [mergeLast]
      | succ j =>
        simp only [mergeLast, List.getD_cons_succ]
        have := ih [] j
        simpa using this
    | cons l ls =>
      cases j with
      | zero => cases c <;> simp [mergeLast]
      | succ j =>
        simp only [mergeLast, List.getD_cons_succ]
        exact ih ls j

theorem lookbackFrom_shift (last : List Cell) (r : Row) (rs : Grid) (i j : Nat) :
    lookbackFrom last (r :: rs) (i + 1) j = lookbackFrom (mergeLast last r) rs i j := by
  induction i with
  | zero =>
    have hL : lookbackFrom last (r :: rs) 1 j =
        match getCell rs 0 j with
        | some v => some v
        | none => lookbackFrom last (r :: rs) 0 j := rfl
    have hR : lookbackFrom (mergeLast last r) rs 0 j =
        match getCell rs 0 j with
        | some v => some v
        | none => (mergeLast last r).getD j none := rfl
    rw [hL, hR]
    cases hv : getCell rs 0 j with
    | some v => rfl
    | none =>
      have h0 : lookbackFrom last (r :: rs) 0 j =
          match r.getD j none with
          | some v => some v
          | none => last.getD j none := rfl
      rw [h0, mergeLast_getD]
  | succ i ih =>
    have hL : lookbackFrom last (r :: rs) (i + 2) j =
        match getCell rs (i + 1) j with
        | some v => some v
        | none => lookbackFrom last (r :: rs) (i + 1) j := rfl
    have hR : lookbackFrom (mergeLast last r) rs (i + 1) j =
        match getCell rs (i + 1) j with
        | some v => some v
        | none => lookbackFrom (mergeLast last r) rs i j := rfl
    rw [hL, hR]
    cases hv : getCell rs (i + 1) j with
    | some v => rfl
    | none => simpa using ih

theorem ffillAux_getCell (g : Grid) :
    ∀ (last : List Cell) (i j : Nat), i < g.length →
      getCell (ffillAux last g) i j = lookbackFrom last g i j := by
  induction g with
  | nil => intro last i j h; simp at h
  | cons r rs ih =>
    intro last i j h
    cases i with
    | zero =>
      have hL : getCell (ffillAux last (r :: rs)) 0 j = (mergeLast last r).getD j none := rfl
      have hR : lookbackFrom last (r :: rs) 0 j =
          match r.getD j none with
          | some v => some v
          | none => last.getD j none := rfl
      rw [hL, hR, mergeLast_getD]
    | succ i =>
      have hL : getCell (ffillAux last (r :: rs)) (i + 1) j =
          getCell (ffillAux (mergeLast last r) rs) i j := rfl
      rw [hL, lookbackFrom_shift]
      exact ih (mergeLast last r) i j (by simpa using Nat.lt_of_succ_lt_succ h)

/-- Forward fill computes, at every in-range position, the nearest non-blank
value at or above it in the same column. -/
theorem ffillGrid_getCell (g : Grid) (i j : Nat) (h : i < g.length) :
    getCell (ffillGrid g) i j = lookback g i j := by
  rw [ffillGrid, lookback]
  exact ffillAux_getCell g [] i j h

theorem takeWhile_isDigit_nil (l : List Char) (h : ∀ c ∈ l, c.isDigit = false) :
    l.takeWhile Char.isDigit = [] := by
  cases l with
  | nil => rfl
  | cons c cs => simp [List.takeWhile_cons, h c (List.mem_cons_self c cs)]

theorem dropWhile_isDigit_self (l : List Char) (h : ∀ c ∈ l, c.isDigit = false) :
    l.dropWhile Char.isDigit = l := by
  cases l with
  | nil => rfl
  | cons c cs => simp [List.dropWhile_cons, h c (List.mem_cons_self c cs)]

/-- A digit-free string never parses to a number: Python `float` needs at least
one digit. -/
theorem parseFloatStr_none_of_no_digit (l : List Char)
    (h : ∀ c ∈ l, c.isDigit = false) : parseFloatStr l = none := by
  rw [parseFloatStr]
  have hbody : ∀ c ∈ (if l.headD ' ' = '-' then l.tail else l), c.isDigit = false := by
    intro c hc
    by_cases hh : l.headD ' ' = '-'
    · rw [if_pos hh] at hc
      exact h c (List.mem_of_mem_tail hc)
    · rw [if_neg hh] at hc
      exact h c hc
  rw [takeWhile_isDigit_nil _ hbody, dropWhile_isDigit_self _ hbody]
  cases hb : (if l.headD ' ' = '-' then l.tail else l) with
  | nil => simp
  | cons c cs =>
    have hc : c.isDigit = false := by
      apply hbody
      rw [hb]
      exact List.mem_cons_self c cs
    by_cases hdot : c = '.'
    · have hfrac : (cs.all Char.isDigit && (!(([] : List Char)).isEmpty || !cs.isEmpty)) = false := by
        cases cs with
        | nil => simp
        | cons c2 cs2 =>
          have hc2 : c2.isDigit = false := by
            apply hbody
            rw [hb]
            exact List.mem_cons_of_mem c (List.mem_cons_self c2 cs2)
          simp [List.all_cons, hc2]
      simp only [if_pos hdot, hfrac, if_neg]
      simp
    · simp only [if_neg hdot]
      simp

theorem charOfNat48_toNat (n : Nat) (h : n < 10) : (Char.ofNat (48 + n)).toNat - 48 = n := by
  interval_cases n <;> decide

theorem charOfNat48_isDigit (n : Nat) (h : n < 10) : (Char.ofNat (48 + n)).isDigit = true := by
  interval_cases n <;> decide

theorem natDecAux_all_digit : ∀ fuel n, (natDecAux fuel n).all Char.isDigit = true := by
  intro fuel
  induction fuel with
  | zero => intro n; rfl
  | succ fuel ih =>
    intro n
    rw [natDecAux]
    by_cases h : n < 10
    · rw [if_pos h]
      simp [charOfNat48_isDigit n h]
    · rw [if_neg h]
      rw [List.all_append]
      simp [ih (n / 10), charOfNat48_isDigit (n % 10) (Nat.mod_lt n (by omega))]

theorem digitsToNat_natDecAux : ∀ fuel n, n ≤ fuel → digitsToNat (natDecAux fuel n) = n := by
  intro fuel
  induction fuel with
  | zero =>
    intro n h
    interval_cases n
    rfl
  | succ fuel ih =>
    intro n h
    rw [natDecAux]
    by_cases h10 : n < 10
    · rw [if_pos h10]
      have hc := charOfNat48_toNat n h10
      rw [digitsToNat]
      simp only [List.foldl_cons, List.foldl_nil, Nat.zero_mul, Nat.zero_add]
      exact hc
    · rw [if_neg h10]
      rw [digitsToNat, List.foldl_append]
      have hpre := ih (n / 10) (by omega)
      rw [digitsToNat] at hpre
      simp only [List.foldl_cons, List.foldl_nil]
      rw [hpre, charOfNat48_toNat (n % 10) (Nat.mod_lt n (by omega))]
      omega

theorem natDecAux_len1 (fuel n : Nat) (h1 : 1 ≤ n) (h9 : n ≤ 9) (hf : n ≤ fuel) :
    (natDecAux fuel n).length = 1 := by
  cases fuel with
  | zero => omega
  | succ fuel =>
    rw [natDecAux, if_pos (by omega : n < 10)]
    rfl

theorem natDecAux_len2 (fuel n : Nat) (h1 : 10 ≤ n) (h9 : n ≤ 99) (hf : n ≤ fuel) :
    (natDecAux fuel n).length = 2 := by
  cases fuel with
  | zero => omega
  | succ fuel =>
    rw [natDecAux, if_neg (by omega : ¬ n < 10), List.length_append]
    rw [natDecAux_len1 fuel (n / 10) (by omega) (by omega) (by omega)]
    rfl

theorem natDecAux_len3 (fuel n : Nat) (h1 : 100 ≤ n) (h9 : n ≤ 999) (hf : n ≤ fuel) :
    (natDecAux fuel n).length = 3 := by
  cases fuel with
  | zero => omega
  | succ fuel =>
    rw [natDecAux, if_neg (by omega : ¬ n < 10), List.length_append]
    rw [natDecAux_len2 fuel (n / 10) (by omega) (by omega) (by omega)]
    rfl

theorem natDecAux_len4 (fuel n : Nat) (h1 : 1000 ≤ n) (h9 : n ≤ 9999) (hf : n ≤ fuel) :
    (natDecAux fuel n).length = 4 := by
  cases fuel with
  | zero => omega
  | succ fuel =>
    rw [natDecAux, if_neg (by omega : ¬ n < 10), List.length_append]
    rw [natDecAux_len3 fuel (n / 10) (by omega) (by omega) (by omega)]
    rfl

theorem parseYear4_natDec (y : Nat) (h1 : 1000 ≤ y) (h2 : y ≤ 9999) :
    parseYear4 (natDec y) = some y := by
  rw [parseYear4, natDec]
  rw [if_pos]
  · rw [digitsToNat_natDecAux y y (Nat.le_refl y)]
  · rw [natDecAux_len4 y y h1 h2 (Nat.le_refl y), natDecAux_all_digit]
    decide

theorem parseMonth_fmt2c (m : Nat) (h1 : 1 ≤ m) (h2 : m ≤ 12) :
    parseMonth (fmt2c m) = some m := by
  interval_cases m <;> decide

theorem parseDay_fmt2c (d : Nat) (h1 : 1 ≤ d) (h2 : d ≤ 31) :
    parseDay (fmt2c d) = some d := by
  interval_cases d <;> decide

theorem fmt2c_all_digit (n : Nat) : (fmt2c n).all Char.isDigit = true := by
  rw [fmt2c]
  by_cases h : n < 10
  · rw [if_pos h]
    simp [charOfNat48_isDigit n h]
  · rw [if_neg h, natDec]
    exact natDecAux_all_digit n n

theorem takeWhile_append_of_all {p : Char → Bool} (a b : List Char) (ha : a.all p = true) :
    (a ++ b).takeWhile p = a ++ b.takeWhile p := by
  induction a with
  | nil => simp
  | cons c cs ih =>
    simp only [List.all_cons, Bool.and_eq_true] at ha
    simp only [List.cons_append, List.takeWhile_cons_of_pos ha.1]
    rw [ih ha.2]

theorem dropWhile_append_of_all {p : Char → Bool} (a b : List Char) (ha : a.all p = true) :
    (a ++ b).dropWhile p = b.dropWhile p := by
  induction a with
  | nil => simp
  | cons c cs ih =>
    simp only [List.all_cons, Bool.and_eq_true] at ha
    simp only [List.cons_append, List.dropWhile_cons_of_pos ha.1]
    exact ih ha.2

theorem contains_eq_false_of_all_ne (l : List Char) (sep : Char)
    (h : l.all (fun x => x ≠ sep) = true) : l.contains sep = false := by
  rw [List.contains_eq_any_beq]
  induction l with
  | nil => rfl
  | cons c cs ih =>
    simp only [List.all_cons, Bool.and_eq_true, decide_eq_true_eq] at h
    simp only [List.any_cons, Bool.or_eq_false_iff]
    constructor
    · simpa using fun hh => h.1 hh.symm
    · exact ih (by simpa using h.2)

theorem split3_of_parts (sep : Char) (a b c : List Char)
    (ha : a.all (fun x => x ≠ sep) = true) (hb : b.all (fun x => x ≠ sep) = true)
    (hc : c.all (fun x => x ≠ sep) = true) :
    split3 sep (a ++ sep :: (b ++ sep :: c)) = some (a, b, c) := by
  rw [split3]
  rw [takeWhile_append_of_all a _ ha, dropWhile_append_of_all a _ ha]
  rw [List.takeWhile_cons_of_neg (by simp), List.dropWhile_cons_of_neg (by simp)]
  simp only []
  rw [takeWhile_append_of_all b _ hb, dropWhile_append_of_all b _ hb]
  rw [List.takeWhile_cons_of_neg (by simp), List.dropWhile_cons_of_neg (by simp)]
  simp only []
  rw [contains_eq_false_of_all_ne c sep hc]
  simp

theorem dropWhile_eq_self_of_none {p : Char → Bool} (l : List Char)
    (h : ∀ c ∈ l, p c = false) : l.dropWhile p = l := by
  cases l with
  | nil => rfl
  | cons c cs => rw [List.dropWhile_cons_of_neg (by simp [h c (List.mem_cons_self c cs)])]

theorem stripChars_eq_self (l : List Char) (h : ∀ c ∈ l, isSpaceChar c = false) :
    stripChars l = l := by
  rw [stripChars]
  rw [dropWhile_eq_self_of_none l h]
  rw [dropWhile_eq_self_of_none l.reverse (fun c hc => h c (List.mem_reverse.mp hc))]
  exact List.reverse_reverse l

theorem isSpaceChar_eq_false_of_isDigit (c : Char) (h : c.isDigit = true) :
    isSpaceChar c = false := by
  cases hs : isSpaceChar c with
  | false => rfl
  | true =>
    exfalso
    rw [isSpaceChar] at hs
    simp only [Bool.or_eq_true, decide_eq_true_eq] at hs
    rcases hs with ((((h1 | h1) | h1) | h1) | h1) | h1 <;> (subst h1; exact absurd h (by decide))

theorem daysInMonth_le_31 (y m : Nat) : daysInMonth y m ≤ 31 := by
  rw [daysInMonth]
  by_cases h2 : m = 2
  · rw [if_pos h2]
    by_cases hl : isLeap y = true
    · rw [if_pos hl]; omega
    · rw [if_neg hl]; omega
  · rw [if_neg h2]
    by_cases h30 : (m = 4 || m = 6 || m = 9 || m = 11) = true
    · rw [if_pos h30]; omega
    · rw [if_neg h30]

theorem all_ne_sep_of_all_digit (l : List Char) (sep : Char) (hsep : sep.isDigit = false)
    (h : l.all Char.isDigit = true) : l.all (fun x => x ≠ sep) = true := by
  rw [List.all_eq_true] at h ⊢
  intro x hx
  have hd := h x hx
  simp only [decide_eq_true_eq]
  intro he
  rw [he] at hd
  rw [hd] at hsep
  exact Bool.noConfusion hsep

theorem tryFormat_formatDate (y m d : Nat) (hy1 : 1000 ≤ y) (hy2 : y ≤ 9999)
    (hm1 : 1 ≤ m) (hm2 : m ≤ 12) (hd1 : 1 ≤ d) (hd2 : d ≤ 31)
    (hv : validDate y m d = true) :
    tryFormat '-' DOrder.ymd (natDec y ++ '-' :: (fmt2c m ++ '-' :: fmt2c d)) =
      some (y, m, d) := by
  have hya := all_ne_sep_of_all_digit (natDec y) '-' (by decide) (natDecAux_all_digit y y)
  have hma := all_ne_sep_of_all_digit (fmt2c m) '-' (by decide) (fmt2c_all_digit m)
  have hda := all_ne_sep_of_all_digit (fmt2c d) '-' (by decide) (fmt2c_all_digit d)
  rw [tryFormat, split3_of_parts '-' (natDec y) (fmt2c m) (fmt2c d) hya hma hda]
  simp only []
  rw [parseYear4_natDec y hy1 hy2, parseMonth_fmt2c m hm1 hm2, parseDay_fmt2c d hd1 hd2]
  simp only []
  rw [if_pos hv]

theorem formatDate_no_space (y m d : Nat) :
    ∀ c ∈ (natDec y ++ '-' :: (fmt2c m ++ '-' :: fmt2c d)), isSpaceChar c = false := by
  intro c hc
  rw [List.mem_append] at hc
  rcases hc with hc | hc
  · exact isSpaceChar_eq_false_of_isDigit c (List.all_eq_true.mp (natDecAux_all_digit y y) c hc)
  · rw [List.mem_cons] at hc
    rcases hc with rfl | hc
    · decide
    · rw [List.mem_append] at hc
      rcases hc with hc | hc
      · exact isSpaceChar_eq_false_of_isDigit c (List.all_eq_true.mp (fmt2c_all_digit m) c hc)
      · rw [List.mem_cons] at hc
        rcases hc with rfl | hc
        · decide
        · exact isSpaceChar_eq_false_of_isDigit c (List.all_eq_true.mp (fmt2c_all_digit d) c hc)

/-- Recoercing a `strftime` output with a four-digit year reproduces it: the
first format, ISO `%Y-%m-%d`, already accepts it and renders it back
identically. -/
theorem parse_date_formatDate (y m d : Nat) (hy1 : 1000 ≤ y) (hy2 : y ≤ 9999)
    (hm1 : 1 ≤ m) (hm2 : m ≤ 12) (hv : validDate y m d = true) :
    parse_date (some (formatDate y m d)) = some (formatDate y m d) := by
  have hd12 : 1 ≤ d ∧ d ≤ 31 := by
    rw [validDate] at hv
    simp only [Bool.and_eq_true, decide_eq_true_eq] at hv
    exact ⟨hv.1.2, le_trans hv.2 (daysInMonth_le_31 y m)⟩
  have hstrip : stripStr (formatDate y m d) = formatDate y m d := by
    rw [formatDate, stripStr]
    rw [show (String.mk (natDec y ++ '-' :: (fmt2c m ++ '-' :: fmt2c d))).toList =
        natDec y ++ '-' :: (fmt2c m ++ '-' :: fmt2c d) from rfl]
    rw [stripChars_eq_self _ (formatDate_no_space y m d)]
  have hne : ¬ formatDate y m d = "" := by
    intro heq
    have hlist : natDec y ++ '-' :: (fmt2c m ++ '-' :: fmt2c d) = ([] : List Char) :=
      congrArg String.data heq
    simp at hlist
  have hpd : parse_date (some (formatDate y m d)) =
      (if stripStr (formatDate y m d) = "" then none
       else dateFormats.findSome? fun p =>
         (tryFormat p.1 p.2 (stripStr (formatDate y m d)).toList).map fun t =>
           formatDate t.1 t.2.1 t.2.2) := rfl
  rw [hpd, hstrip, if_neg hne]
  have hlist : (formatDate y m d).toList = natDec y ++ '-' :: (fmt2c m ++ '-' :: fmt2c d) := rfl
  rw [hlist]
  rw [show dateFormats = ('-', DOrder.ymd) ::
      [('/', DOrder.dmy), ('/', DOrder.mdy), ('-', DOrder.dmy), ('/', DOrder.ymd),
       ('.', DOrder.dmy)] from rfl]
  rw [List.findSome?_cons]
  rw [show tryFormat ('-', DOrder.ymd).1 ('-', DOrder.ymd).2
      (natDec y ++ '-' :: (fmt2c m ++ '-' :: fmt2c d)) =
      tryFormat '-' DOrder.ymd (natDec y ++ '-' :: (fmt2c m ++ '-' :: fmt2c d)) from rfl]
  rw [tryFormat_formatDate y m d hy1 hy2 hm1 hm2 hd12.1 hd12.2 hv]
  rfl

/-- A column mapped to a field outside the numeric and date sets stores the
trimmed cell text verbatim when the cell is non-blank, and nothing otherwise. -/
theorem coerceStep_text_field (f : String)
    (hn : NUMERIC_FIELDS.contains f = false) (hd : DATE_FIELDS.contains f = false)
    (row : Row) (i : Nat) (hdr : String) :
    coerceStep row [] (i, ⟨hdr, f⟩) =
      match row.getD i none with
      | some v => [(f, Val.str (stripStr v))]
      | none => [] := by
  rw [coerceStep]
  simp only []
  rw [if_neg (by rw [hn]; exact Bool.noConfusion), if_neg (by rw [hd]; exact Bool.noConfusion)]
  cases hv : row.getD i none with
  | none => rfl
  | some v => rfl

/-- A column mapped to a numeric field routes its cell through `clean_numeric`. -/
theorem coerceStep_numeric_field (f : String)
    (hn : NUMERIC_FIELDS.contains f = true)
    (row : Row) (i : Nat) (hdr : String) :
    coerceStep row [] (i, ⟨hdr, f⟩) =
      match clean_numeric (row.getD i none) with
      | some q => [(f, Val.num q)]
      | none => [] := by
  rw [coerceStep]
  simp only []
  rw [if_pos hn]
  cases hv : clean_numeric (row.getD i none) with
  | none => rfl
  | some q => rfl

theorem parse_excel_success_iff (g : Grid) :
    (parse_excel (some g)).success = true ↔ locateAnchor g ≠ none := by
  cases h : locateAnchor g with
  | none =>
    simp only [parse_excel]
    rw [h]
    simp
  | some hr =>
    simp only [parse_excel]
    rw [h]
    simp

-- =============================================================================
-- Claim theorems
-- =============================================================================

/-- Claim C1 (counterexample): the spec's scoring-matrix classification of CAPEX
text does not happen in the code.  On the claim's own example inputs, the spec
rules give `ZERO_COST` for "No requiere" and `MEDIUM_COST` for "Entre 20 y 100",
but the parser — `capexTier` being in `NUMERIC_FIELDS` — records nothing for
"No requiere" and the number 20100 for "Entre 20 y 100"; no enumeration value is
ever produced. -/
theorem capex_enum_counterexample :
    capexClassifySpec "No requiere" = some CapexTierClass.ZERO_COST ∧
    coerceStep [some "No requiere"] [] (0, ⟨"¿Requiere CAPEX/Inversión?", "capexTier"⟩) = [] ∧
    capexClassifySpec "Entre 20 y 100" = some CapexTierClass.MEDIUM_COST ∧
    coerceStep [some "Entre 20 y 100"] [] (0, ⟨"¿Requiere CAPEX/Inversión?", "capexTier"⟩) =
      [("capexTier", Val.num 20100)] :=
  ⟨by decide, by decide, by decide, by decide⟩

/-- Claim C1 (amended): `capexTier` is a numeric field, so a CAPEX cell is
numerically cleaned rather than classified: "> 100 KUSD" yields 100,
"Entre 20 y 100" yields 20100, and "no"/"no requiere"/"ninguno"/"pendiente"
yield absent; every CAPEX cell goes through `clean_numeric`. -/
theorem capex_numeric_cleaning :
    ("capexTier" ∈ NUMERIC_FIELDS) ∧
    (∀ (row : Row) (i : Nat) (hdr : String),
      coerceStep row [] (i, ⟨hdr, "capexTier"⟩) =
        match clean_numeric (row.getD i none) with
        | some q => [("capexTier", Val.num q)]
        | none => []) ∧
    clean_numeric (some "> 100 KUSD") = some 100 ∧
    clean_numeric (some "Entre 20 y 100") = some 20100 ∧
    clean_numeric (some "no") = none ∧
    clean_numeric (some "No requiere") = none ∧
    clean_numeric (some "ninguno") = none ∧
    clean_numeric (some "pendiente") = none := by
  refine ⟨by decide, ?_, by decide, by decide, by decide, by decide, by decide, by decide⟩
  intro row i hdr
  exact coerceStep_numeric_field "capexTier" (by decide) row i hdr

/-- Claim C2: the anchor locator tries "iniciativa", then "proyecto", then
"nombre"; for the first keyword that matches it returns the index of the first
row within the 15-row bound whose normalized cell text contains the keyword as
a substring, in any column; if no keyword matches, detection fails and the
parse is unsuccessful. -/
theorem anchor_locator_first_match (g : Grid) :
    (∀ (kw : String) (r : Row), rowMatches kw r = true ↔ ∃ c ∈ r, cellMatches kw c = true) ∧
    (∀ (kw c : String), cellMatches kw (some c) = true ↔
        kw.toList <:+: (normalize_header (some c)).toList) ∧
    (∀ (kw : String) (i : Nat), find_header_row g kw 15 = some i →
        i < min 15 g.length ∧ rowMatches kw (g.getD i []) = true ∧
        ∀ j, j < i → rowMatches kw (g.getD j []) = false) ∧
    (∀ kw : String, (∀ i, i < min 15 g.length → rowMatches kw (g.getD i []) = false) →
        find_header_row g kw 15 = none) ∧
    (∀ i, find_header_row g "iniciativa" 15 = some i → locateAnchor g = some i) ∧
    (find_header_row g "iniciativa" 15 = none →
        ∀ i, find_header_row g "proyecto" 15 = some i → locateAnchor g = some i) ∧
    (find_header_row g "iniciativa" 15 = none → find_header_row g "proyecto" 15 = none →
        locateAnchor g = find_header_row g "nombre" 15) ∧
    (locateAnchor g = none → (parse_excel (some g)).success = false) := by
  refine ⟨?_, ?_, ?_, ?_, ?_, ?_, ?_, ?_⟩
  · intro kw r
    rw [rowMatches, List.any_eq_true]
  · intro kw c
    exact hasSub_iff_isInfix kw.toList (normalize_header (some c)).toList
  · intro kw i h
    obtain ⟨k, hk0, hkf, hkl, hm, hp⟩ := findHeaderAux_some g 15 0 i h
    have hik : i = k := by omega
    subst hik
    exact ⟨by omega, hm, hp⟩
  · intro kw h
    exact findHeaderAux_none g 15 0 h
  · intro i h
    rw [locateAnchor, h]
  · intro h1 i h2
    rw [locateAnchor, h1, h2]
  · intro h1 h2
    rw [locateAnchor, h1, h2]
  · intro h
    cases hs : (parse_excel (some g)).success with
    | false => rfl
    | true => exact absurd h ((parse_excel_success_iff g).mp hs)

/-- Claim C2 (witness): on a grid whose second row contains "proyecto" (and no
row contains "iniciativa"), the locator falls through to the second keyword and
returns row index 1. -/
theorem anchor_locator_first_match_witness :
    locateAnchor [[some "x"], [some " PROYECTO X"]] = some 1 :=
  (anchor_locator_first_match [[some "x"], [some " PROYECTO X"]]).2.2.2.2.2.1
    (by decide) 1 (by decide)

/-- Claim C3 (counterexample): there is no boolean coercion in the code.  For a
yes/no-style field ("ingresada en pbot"), the spec-side boolean coercer maps
"Sí" to true and leaves "tal vez" absent, but the parser stores both as raw
trimmed strings — unrecognized text is kept, not dropped, and no boolean is
ever produced. -/
theorem bool_coercion_counterexample :
    boolCoerceSpec "Sí" = some true ∧
    coerceStep [some "Sí"] [] (0, ⟨"Ingresada en PBOT", "ingresadaEnPbot"⟩) =
      [("ingresadaEnPbot", Val.str "Sí")] ∧
    boolCoerceSpec "tal vez" = none ∧
    coerceStep [some "tal vez"] [] (0, ⟨"Ingresada en PBOT", "ingresadaEnPbot"⟩) =
      [("ingresadaEnPbot", Val.str "tal vez")] :=
  ⟨by decide, by decide, by decide, by decide⟩

/-- Claim C3 (amended): fields outside the numeric and date sets undergo no
boolean interpretation: any non-blank cell is stored as its trimmed text and a
blank cell writes nothing, for every input string alike. -/
theorem string_passthrough (f : String)
    (hn : NUMERIC_FIELDS.contains f = false) (hd : DATE_FIELDS.contains f = false) :
    ∀ (row : Row) (i : Nat) (hdr : String),
      coerceStep row [] (i, ⟨hdr, f⟩) =
        match row.getD i none with
        | some v => [(f, Val.str (stripStr v))]
        | none => [] :=
  fun row i hdr => coerceStep_text_field f hn hd row i hdr

/-- Claim C3 (witness): the pass-through instantiated at the "ingresada en
pbot" column and a concrete cell. -/
theorem string_passthrough_witness :
    coerceStep [some " Hola "] [] (0, ⟨"Ingresada en PBOT", "ingresadaEnPbot"⟩) =
      [("ingresadaEnPbot", Val.str "Hola")] := by
  rw [string_passthrough "ingresadaEnPbot" (by decide) (by decide) [some " Hola "] 0
    "Ingresada en PBOT"]
  decide

/-- Claim C4 (counterexample): a later column whose label maps to the same
canonical field is not treated as unmapped: with two columns both labelled
"Iniciativa", both enter the column map, and the record carries the second
column's value "Beta", not the first column's "Alpha". -/
theorem column_map_counterexample :
    buildColumnMap
        (buildMergedHeader [[some "Iniciativa", some "Iniciativa"], [some "Alpha", some "Beta"]] 0)
        2 =
      [(0, ⟨"Iniciativa", "projectName"⟩), (1, ⟨"Iniciativa", "projectName"⟩)] ∧
    (parse_excel
        (some [[some "Iniciativa", some "Iniciativa"], [some "Alpha", some "Beta"]])).projects =
      [[("projectName", Val.str "Beta"), ("status", Val.str "Draft")]] :=
  ⟨by decide, by decide⟩

/-- Claim C4 (amended): the column map is a function from column index to at
most one canonical field (membership is exactly "the merged header has an exact
mapping"), but duplicate columns mapping to the same field are all retained;
during extraction the mapped columns are written in ascending column order, so
the last duplicate with a present value supplies the field, while a blank later
duplicate leaves the earlier value in place. -/
theorem column_map_duplicates :
    (∀ (hdr : Nat → String) (n i : Nat) (m : ColMapping),
      (i, m) ∈ buildColumnMap hdr n ↔
        i < n ∧ m.header = hdr i ∧ map_column_name (hdr i) = some m.field) ∧
    (∀ (hdr : Nat → String) (n i : Nat) (m1 m2 : ColMapping),
      (i, m1) ∈ buildColumnMap hdr n → (i, m2) ∈ buildColumnMap hdr n → m1 = m2) ∧
    assembleRow [(0, ⟨"Iniciativa", "projectName"⟩), (1, ⟨"Iniciativa", "projectName"⟩)]
        [some "Alpha", some "Beta"] =
      some [("projectName", Val.str "Beta"), ("status", Val.str "Draft")] ∧
    assembleRow [(0, ⟨"Iniciativa", "projectName"⟩), (1, ⟨"Iniciativa", "projectName"⟩)]
        [some "Alpha", none] =
      some [("projectName", Val.str "Alpha"), ("status", Val.str "Draft")] := by
  have hmem : ∀ (hdr : Nat → String) (n i : Nat) (m : ColMapping),
      (i, m) ∈ buildColumnMap hdr n ↔
        i < n ∧ m.header = hdr i ∧ map_column_name (hdr i) = some m.field := by
    intro hdr n i m
    rw [buildColumnMap, List.mem_filterMap]
    constructor
    · rintro ⟨j, hj, hmap⟩
      rw [List.mem_range] at hj
      cases hmc : map_column_name (hdr j) with
      | none => rw [hmc] at hmap; exact absurd hmap (by simp)
      | some f =>
        rw [hmc] at hmap
        simp only [Option.some.injEq, Prod.mk.injEq] at hmap
        obtain ⟨hji, hm⟩ := hmap
        subst hji
        rw [← hm]
        exact ⟨hj, rfl, hmc⟩
    · rintro ⟨hi, hh, hf⟩
      refine ⟨i, List.mem_range.mpr hi, ?_⟩
      rw [hf]
      cases m with
      | mk mh mf =>
        rw [show (⟨mh, mf⟩ : ColMapping).header = mh from rfl] at hh
        rw [show (⟨mh, mf⟩ : ColMapping).field = mf from rfl, hh]
  refine ⟨hmem, ?_, by decide, by decide⟩
  intro hdr n i m1 m2 h1 h2
  obtain ⟨_, hh1, hf1⟩ := (hmem hdr n i m1).mp h1
  obtain ⟨_, hh2, hf2⟩ := (hmem hdr n i m2).mp h2
  cases m1 with
  | mk h1h h1f =>
    cases m2 with
    | mk h2h h2f =>
      simp only at hh1 hf1 hh2 hf2
      rw [hf1] at hf2
      simp only [Option.some.injEq] at hf2
      rw [hh1, hh2, hf2]

/-- Claim C4 (witness): the membership characterization instantiated at a
concrete one-column header set. -/
theorem column_map_duplicates_witness :
    (0, (⟨"Iniciativa", "projectName"⟩ : ColMapping)) ∈
      buildColumnMap (fun _ => "Iniciativa") 1 :=
  (column_map_duplicates.1 (fun _ => "Iniciativa") 1 0 ⟨"Iniciativa", "projectName"⟩).mpr
    ⟨by decide, rfl, by decide⟩

/-- Claim C5: columnwise forward fill replaces every cell by the nearest
non-blank value at or above it in its column, it runs before blank rows are
dropped (the spec's three-row example fills "Alpha" down the first column, and
a data row that is blank before filling is retained and emitted afterwards),
and only after filling are all-blank rows skipped. -/
theorem forward_fill_before_skip :
    (∀ (g : Grid) (i j : Nat), i < g.length → getCell (ffillGrid g) i j = lookback g i j) ∧
    ffillGrid [[some "Alpha", none], [none, some "X"], [none, some "Y"]] =
      [[some "Alpha", none], [some "Alpha", some "X"], [some "Alpha", some "Y"]] ∧
    (parse_excel (some [[some "Iniciativa"], [some "Alpha"], [none]])).totalRows = 2 ∧
    (parse_excel (some [[some "Iniciativa"], [some "Alpha"], [none]])).projects =
      [[("projectName", Val.str "Alpha"), ("status", Val.str "Draft")],
       [("projectName", Val.str "Alpha"), ("status", Val.str "Draft")]] :=
  ⟨ffillGrid_getCell, by decide, by decide, by decide⟩

/-- Claim C5 (witness): the fill characterization applied to a concrete
two-row, one-column grid whose blank second cell inherits "Alpha". -/
theorem forward_fill_before_skip_witness :
    getCell (ffillGrid [[some "Alpha"], [none]]) 1 0 = lookback [[some "Alpha"], [none]] 1 0 ∧
    lookback [[some "Alpha"], [none]] 1 0 = some "Alpha" :=
  ⟨forward_fill_before_skip.1 [[some "Alpha"], [none]] 1 0 (by decide), by decide⟩

/-- Claim C6: every emitted record has a truthy (present, non-empty)
`projectName` and carries a `status`; a row whose assembled record lacks a
truthy name is dropped whole; when `status` is falsy after coercion the emitted
record carries "Draft"; and the concrete one-data-row grid whose only
non-blank mapped cell is the project name yields exactly one record with
status "Draft". -/
theorem record_invariants :
    (∀ (cm : List (Nat × ColMapping)) (row : Row) (p : Project),
      assembleRow cm row = some p →
        truthyVal (dictGet p "projectName") = true ∧ ∃ v, dictGet p "status" = some v) ∧
    (∀ (cm : List (Nat × ColMapping)) (row : Row),
      truthyVal (dictGet (rawAssemble cm row) "projectName") = false →
        assembleRow cm row = none) ∧
    (∀ (cm : List (Nat × ColMapping)) (row : Row) (p : Project),
      truthyVal (dictGet (rawAssemble cm row) "status") = false →
        assembleRow cm row = some p → dictGet p "status" = some (Val.str "Draft")) ∧
    (parse_excel (some [[some "Iniciativa", some "Descripción"], [some "Alpha", none]])).projects =
      [[("projectName", Val.str "Alpha"), ("status", Val.str "Draft")]] := by
  have hred : ∀ (cm : List (Nat × ColMapping)) (row : Row),
      assembleRow cm row =
        if truthyVal (dictGet (rawAssemble cm row) "projectName") = true then
          some (if truthyVal (dictGet (rawAssemble cm row) "status") = true then
            rawAssemble cm row
          else dictInsert (rawAssemble cm row) "status" (Val.str "Draft"))
        else none := fun cm row => rfl
  refine ⟨?_, ?_, ?_, by decide⟩
  · intro cm row p h
    rw [hred] at h
    by_cases hname : truthyVal (dictGet (rawAssemble cm row) "projectName") = true
    · rw [if_pos hname] at h
      injection h with h
      by_cases hst : truthyVal (dictGet (rawAssemble cm row) "status") = true
      · rw [if_pos hst] at h
        subst h
        exact ⟨hname, truthyVal_isSome hst⟩
      · rw [if_neg hst] at h
        subst h
        constructor
        · rw [dictGet_dictInsert_other _ "status" "projectName" _ (by decide)]
          exact hname
        · exact ⟨Val.str "Draft", dictGet_dictInsert_self _ "status" _⟩
    · rw [if_neg hname] at h
      exact absurd h (by simp)
  · intro cm row hname
    rw [hred, if_neg (by rw [hname]; exact Bool.noConfusion)]
  · intro cm row p hst h
    rw [hred] at h
    by_cases hname : truthyVal (dictGet (rawAssemble cm row) "projectName") = true
    · rw [if_pos hname] at h
      injection h with h
      rw [if_neg (by rw [hst]; exact Bool.noConfusion)] at h
      subst h
      exact dictGet_dictInsert_self _ "status" _
    · rw [if_neg hname] at h
      exact absurd h (by simp)

/-- Claim C6 (witness): the invariants applied to the record assembled from the
single-cell row ["Alpha"] under the name-only column map. -/
theorem record_invariants_witness :
    truthyVal (dictGet [("projectName", Val.str "Alpha"), ("status", Val.str "Draft")]
      "projectName") = true ∧
    ∃ v, dictGet [("projectName", Val.str "Alpha"), ("status", Val.str "Draft")]
      "status" = some v :=
  record_invariants.1 nameOnlyMap [some "Alpha"]
    [("projectName", Val.str "Alpha"), ("status", Val.str "Draft")] (by decide)

/-- Claim C7 (counterexample): a row rejected for a missing project name is not
"recorded in diagnostics".  On a grid whose single data row has a blank
name cell but a non-blank description, the parse succeeds, the row is scanned
(totalRows = 1) and silently dropped: no record and no error string at all. -/
theorem error_propagation_counterexample :
    (parse_excel (some [[some "Iniciativa", some "Descripción"], [none, some "x"]])).success
      = true ∧
    (parse_excel (some [[some "Iniciativa", some "Descripción"], [none, some "x"]])).totalRows
      = 1 ∧
    (parse_excel (some [[some "Iniciativa", some "Descripción"], [none, some "x"]])).projects
      = [] ∧
    (parse_excel (some [[some "Iniciativa", some "Descripción"], [none, some "x"]])).errors
      = [] :=
  ⟨by decide, by decide, by decide, by decide⟩

/-- Claim C7 (amended): only a detection failure (no anchor keyword found) or a
source read failure leave success = false — success holds exactly when an
anchor row is located; a missing input grid fails; and a zero-row grid yields a
detection failure with a diagnostic rather than a crash.  Rejected rows and
coercion failures are skipped silently, without aborting the pass. -/
theorem error_propagation :
    (∀ g : Grid, (parse_excel (some g)).success = true ↔ locateAnchor g ≠ none) ∧
    (parse_excel none).success = false ∧
    (parse_excel none).errors ≠ [] ∧
    (parse_excel (some [])).success = false ∧
    (parse_excel (some [])).errors =
      ["No se encontró la fila de encabezado con \"Iniciativa\". Buscando alternativas...",
       "No se pudo detectar la fila de encabezado."] :=
  ⟨parse_excel_success_iff, rfl, by decide, by decide, by decide⟩

/-- Claim C8: numeric coercion never raises and never invents a zero — a blank
cell and any digit-free text (in particular the pure punctuation remainders
".", "-", "-.") yield absent; the coercion depends only on the kept characters
(digits, '.', '-'), so pre-cleaning the text changes nothing; a cleaned string
with a valid shape parses as an exact decimal and a malformed one (two dots)
yields absent. -/
theorem numeric_coercion_spec :
    clean_numeric none = none ∧
    (∀ s : String, (∀ c ∈ s.toList, c.isDigit = false) → clean_numeric (some s) = none) ∧
    (∀ s : String,
      clean_numeric (some s) = clean_numeric (some (String.mk (cleanChars s.toList)))) ∧
    clean_numeric (some ".") = none ∧
    clean_numeric (some "-") = none ∧
    clean_numeric (some "-.") = none ∧
    clean_numeric (some " $ -, . ") = none ∧
    clean_numeric (some "1.2.3") = none ∧
    clean_numeric (some "> 100 KUSD") = some 100 ∧
    clean_numeric (some "12.5 KUSD") = some (25 / 2) := by
  have hif : ∀ t : String, clean_numeric (some t) =
      (if (cleanChars t.toList = [] || cleanChars t.toList = ['.'] || cleanChars t.toList = ['-']
          || cleanChars t.toList = ['-', '.']) = true then none
       else parseFloatStr (cleanChars t.toList)) := fun t => rfl
  refine ⟨rfl, ?_, ?_, by decide, by decide, by decide, by decide, by decide, by decide, ?_⟩
  · intro s h
    rw [hif s]
    by_cases hg : (cleanChars s.toList = [] || cleanChars s.toList = ['.']
        || cleanChars s.toList = ['-'] || cleanChars s.toList = ['-', '.']) = true
    · rw [if_pos hg]
    · rw [if_neg hg]
      apply parseFloatStr_none_of_no_digit
      intro c hc
      exact h c (List.mem_of_mem_filter hc)
  · intro s
    rw [hif s, hif (String.mk (cleanChars s.toList))]
    rw [show (String.mk (cleanChars s.toList)).toList = cleanChars s.toList from rfl]
    rw [show cleanChars (cleanChars s.toList) = cleanChars s.toList from by
      rw [cleanChars, cleanChars, List.filter_filter]
      apply List.filter_congr
      intro a _
      rw [Bool.and_self]]
  · have h1 : clean_numeric (some "12.5 KUSD") = parseFloatStr ['1', '2', '.', '5'] := rfl
    rw [h1]
    simp [parseFloatStr, digitsToNat]
    norm_num

/-- Claim C8 (witness): the digit-free rule applied at "no requiere". -/
theorem numeric_coercion_spec_witness :
    clean_numeric (some "no requiere") = none :=
  numeric_coercion_spec.2.1 "no requiere" (by decide)

/-- Claim C9 (counterexample): re-coercion of an ISO output is not idempotent
in general.  The ISO input "0005-03-15" parses (strptime `%Y` accepts four
digits with leading zeros) and is re-rendered by strftime without padding as
"5-03-15"; re-coercing that output fails every pattern and yields absent, not
the same string. -/
theorem date_idempotence_counterexample :
    parse_date (some "0005-03-15") = some "5-03-15" ∧
    parse_date (some "5-03-15") = none :=
  ⟨by decide, by decide⟩

/-- Claim C9 (amended): date coercion tries the six patterns in order and
returns the first successful parse rendered as a calendar date: "15/03/2024"
and "2024-03-15" both yield "2024-03-15" and the ambiguous "05/03/2024" is read
day-first because `%d/%m/%Y` precedes `%m/%d/%Y`; blank or unparsable input
yields absent; and re-coercing an output whose year has four digits (year in
1000–9999) returns it unchanged. -/
theorem date_coercion_amended :
    parse_date (some "15/03/2024") = some "2024-03-15" ∧
    parse_date (some "2024-03-15") = some "2024-03-15" ∧
    parse_date (some "05/03/2024") = some "2024-03-05" ∧
    parse_date none = none ∧
    parse_date (some "   ") = none ∧
    parse_date (some "pendiente") = none ∧
    formatDate 2024 3 15 = "2024-03-15" ∧
    (∀ y m d : Nat, 1000 ≤ y → y ≤ 9999 → 1 ≤ m → m ≤ 12 → validDate y m d = true →
      parse_date (some (formatDate y m d)) = some (formatDate y m d)) := by
  refine ⟨by decide, by decide, by decide, rfl, by decide, by decide, by decide, ?_⟩
  intro y m d hy1 hy2 hm1 hm2 hv
  exact parse_date_formatDate y m d hy1 hy2 hm1 hm2 hv

/-- Claim C9 (witness): idempotent re-coercion at the leap-day output
"2024-02-29". -/
theorem date_coercion_amended_witness :
    parse_date (some (formatDate 2024 2 29)) = some (formatDate 2024 2 29) :=
  date_coercion_amended.2.2.2.2.2.2.2 2024 2 29 (by decide) (by decide) (by decide)
    (by decide) (by decide)

/-- Claim C10 (counterexample): a blank name cell below a non-blank name does
not always produce a record.  In the name column ["Alpha", " ", blank], the
blank third cell inherits the nearest non-blank value above it — the
whitespace string " ", not "Alpha" — which trims to empty, so the row is
rejected even though an earlier row holds the non-blank name "Alpha": the parse
scans three data rows and emits exactly one record. -/
theorem name_inheritance_counterexample :
    ffillGrid [[some "Alpha"], [some " "], [none]] =
      [[some "Alpha"], [some " "], [some " "]] ∧
    (parse_excel (some [[some "Iniciativa"], [some "Alpha"], [some " "], [none]])).totalRows
      = 3 ∧
    (parse_excel (some [[some "Iniciativa"], [some "Alpha"], [some " "], [none]])).projects
      = [[("projectName", Val.str "Alpha"), ("status", Val.str "Draft")]] :=
  ⟨by decide, by decide, by decide⟩

/-- Claim C10 (amended): under a name-only column map, the record emitted for
data row `i` is decided by the nearest non-blank value at or above `i` in the
name column: if it exists and trims to a non-empty string the row yields a
record carrying that inherited trimmed name (with status "Draft"), and
otherwise — no value above, or a whitespace-only one — the row is rejected. -/
theorem name_inheritance (g : Grid) (i : Nat) (h : i < g.length) :
    assembleRow nameOnlyMap ((ffillGrid g).getD i []) =
      match lookback g i 0 with
      | some s =>
        if stripStr s = "" then none
        else some [("projectName", Val.str (stripStr s)), ("status", Val.str "Draft")]
      | none => none := by
  have hcell : ((ffillGrid g).getD i []).getD 0 none = lookback g i 0 :=
    ffillGrid_getCell g i 0 h
  have hraw : rawAssemble nameOnlyMap ((ffillGrid g).getD i []) =
      (match ((ffillGrid g).getD i []).getD 0 none with
       | some v => [("projectName", Val.str (stripStr v))]
       | none => []) := by
    rw [rawAssemble, nameOnlyMap, List.foldl_cons, List.foldl_nil]
    exact coerceStep_text_field "projectName" (by decide) (by decide) _ 0 "Iniciativa"
  have hred : assembleRow nameOnlyMap ((ffillGrid g).getD i []) =
      (if truthyVal (dictGet (rawAssemble nameOnlyMap ((ffillGrid g).getD i []))
          "projectName") = true then
        some (if truthyVal (dictGet (rawAssemble nameOnlyMap ((ffillGrid g).getD i []))
            "status") = true then
          rawAssemble nameOnlyMap ((ffillGrid g).getD i [])
        else dictInsert (rawAssemble nameOnlyMap ((ffillGrid g).getD i []))
          "status" (Val.str "Draft"))
      else none) := rfl
  rw [hred, hraw, hcell]
  cases hl : lookback g i 0 with
  | none => simp [dictGet, List.find?, truthyVal]
  | some s =>
    by_cases hs : stripStr s = ""
    · simp [dictGet, List.find?, truthyVal, hs]
    · simp [dictGet, List.find?, truthyVal, dictInsert, hs]

/-- Claim C10 (witness): a blank name cell directly below the name "Beta"
inherits it and is emitted. -/
theorem name_inheritance_witness :
    assembleRow nameOnlyMap ((ffillGrid [[some "Beta"], [none]]).getD 1 []) =
      some [("projectName", Val.str "Beta"), ("status", Val.str "Draft")] := by
  rw [name_inheritance [[some "Beta"], [none]] 1 (by decide)]
  decide
